import Mathlib

/-!
Verification development for the cloudflare-ddns-worker request handler
(src/src/index.ts).  JavaScript strings are embedded as lists of Unicode
code points (`JStr`); bytes are plain `Nat` values below 256.  The handler
`fetch` is translated line by line from the source; the external runtime
primitives it relies on (TextEncoder, Buffer base64 decoding,
crypto.subtle.timingSafeEqual, and the ip-address library) are modelled
from their documented behaviour as executable functions.
-/

set_option maxRecDepth 8000

namespace DDNS

/-- JavaScript string, embedded as the list of its Unicode code points. -/
abbrev JStr := List Nat

/-- Lift a Lean string literal into the `JStr` embedding. -/
def jstr (s : String) : JStr := s.data.map Char.toNat

/-- Validity of a code point list: every element is a Unicode code point. -/
def validJStr (s : JStr) : Prop := ∀ c ∈ s, c < 0x110000

instance (s : JStr) : Decidable (validJStr s) := by
  unfold validJStr; infer_instance

/-- Modelled from the spec: UTF-8 encoding of one code point, as performed by
the TextEncoder runtime used at src/src/index.ts line 19. -/
def utf8EncodeChar (c : Nat) : List Nat :=
  if c < 0x80 then [c]
  else if c < 0x800 then [0xC0 + c / 64, 0x80 + c % 64]
  else if c < 0x10000 then [0xE0 + c / 4096, 0x80 + c / 64 % 64, 0x80 + c % 64]
  else [0xF0 + c / 262144, 0x80 + c / 4096 % 64, 0x80 + c / 64 % 64, 0x80 + c % 64]

/-- Modelled from the spec: UTF-8 encoding of a whole string (TextEncoder.encode). -/
def utf8Encode : JStr → List Nat
  | [] => []
  | c :: cs => utf8EncodeChar c ++ utf8Encode cs

/-- Continuation byte test for UTF-8 decoding. -/
def contB (b : Nat) : Prop := 0x80 ≤ b ∧ b < 0xC0

instance (b : Nat) : Decidable (contB b) := by unfold contB; infer_instance

/-- Code point of a two-byte UTF-8 sequence. -/
def twoVal (b b1 : Nat) : Nat := (b - 0xC0) * 64 + (b1 - 0x80)

/-- Code point of a three-byte UTF-8 sequence. -/
def threeVal (b b1 b2 : Nat) : Nat :=
  (b - 0xE0) * 4096 + (b1 - 0x80) * 64 + (b2 - 0x80)

/-- Code point of a four-byte UTF-8 sequence, with the out-of-range guard. -/
def fourVal (b b1 b2 b3 : Nat) : Nat :=
  if (b - 0xF0) * 262144 + (b1 - 0x80) * 4096 + (b2 - 0x80) * 64 + (b3 - 0x80) < 0x110000 then
    (b - 0xF0) * 262144 + (b1 - 0x80) * 4096 + (b2 - 0x80) * 64 + (b3 - 0x80)
  else 0xFFFD

/-- Modelled from the spec: UTF-8 decoding of a byte list, as performed by
Buffer.toString at src/src/index.ts line 62.  Malformed sequences produce
the replacement character 0xFFFD and resume after the offending lead byte. -/
def utf8Decode : List Nat → JStr
  | [] => []
  | [b] => if b < 0x80 then [b] else [0xFFFD]
  | [b, b1] =>
    if b < 0x80 then b :: utf8Decode [b1]
    else if b < 0xC0 then 0xFFFD :: utf8Decode [b1]
    else if b < 0xE0 then
      if contB b1 then [twoVal b b1] else 0xFFFD :: utf8Decode [b1]
    else 0xFFFD :: utf8Decode [b1]
  | [b, b1, b2] =>
    if b < 0x80 then b :: utf8Decode [b1, b2]
    else if b < 0xC0 then 0xFFFD :: utf8Decode [b1, b2]
    else if b < 0xE0 then
      if contB b1 then twoVal b b1 :: utf8Decode [b2] else 0xFFFD :: utf8Decode [b1, b2]
    else if b < 0xF0 then
      if contB b1 ∧ contB b2 then [threeVal b b1 b2] else 0xFFFD :: utf8Decode [b1, b2]
    else 0xFFFD :: utf8Decode [b1, b2]
  | b :: b1 :: b2 :: b3 :: bs =>
    if b < 0x80 then b :: utf8Decode (b1 :: b2 :: b3 :: bs)
    else if b < 0xC0 then 0xFFFD :: utf8Decode (b1 :: b2 :: b3 :: bs)
    else if b < 0xE0 then
      if contB b1 then twoVal b b1 :: utf8Decode (b2 :: b3 :: bs)
      else 0xFFFD :: utf8Decode (b1 :: b2 :: b3 :: bs)
    else if b < 0xF0 then
      if contB b1 ∧ contB b2 then threeVal b b1 b2 :: utf8Decode (b3 :: bs)
      else 0xFFFD :: utf8Decode (b1 :: b2 :: b3 :: bs)
    else
      if contB b1 ∧ contB b2 ∧ contB b3 then fourVal b b1 b2 b3 :: utf8Decode bs
      else 0xFFFD :: utf8Decode (b1 :: b2 :: b3 :: bs)

/-- Modelled from the spec: base64 alphabet, value to character code. -/
def sextetChar (n : Nat) : Nat :=
  if n < 26 then 65 + n
  else if n < 52 then 97 + (n - 26)
  else if n < 62 then 48 + (n - 52)
  else if n = 62 then 43
  else 47

/-- Modelled from the spec: base64 alphabet, character code to value. -/
def charSextet (c : Nat) : Option Nat :=
  if 65 ≤ c ∧ c ≤ 90 then some (c - 65)
  else if 97 ≤ c ∧ c ≤ 122 then some (c - 97 + 26)
  else if 48 ≤ c ∧ c ≤ 57 then some (c - 48 + 52)
  else if c = 43 then some 62
  else if c = 47 then some 63
  else none

/-- Modelled from the spec: standard base64 encoding of a byte list, used to
build Basic-auth tokens for the handler. -/
def base64Encode : List Nat → List Nat
  | [] => []
  | [b0] => [sextetChar (b0 / 4), sextetChar (b0 % 4 * 16), 61, 61]
  | [b0, b1] => [sextetChar (b0 / 4), sextetChar (b0 % 4 * 16 + b1 / 16), sextetChar (b1 % 16 * 4), 61]
  | b0 :: b1 :: b2 :: rest =>
    sextetChar (b0 / 4) :: sextetChar (b0 % 4 * 16 + b1 / 16) ::
      sextetChar (b1 % 16 * 4 + b2 / 64) :: sextetChar (b2 % 64) :: base64Encode rest

/-- Collect the sextet values of the alphabet characters of a base64 text,
ignoring padding and foreign characters as the node Buffer decoder does. -/
def base64Sextets : List Nat → List Nat
  | [] => []
  | c :: cs =>
    match charSextet c with
    | some s => s :: base64Sextets cs
    | none => base64Sextets cs

/-- Reassemble bytes from base64 sextet values. -/
def sextetsToBytes : List Nat → List Nat
  | s0 :: s1 :: s2 :: s3 :: rest =>
    (s0 * 4 + s1 / 16) :: (s1 % 16 * 16 + s2 / 4) :: (s2 % 4 * 64 + s3) :: sextetsToBytes rest
  | [s0, s1] => [s0 * 4 + s1 / 16]
  | [s0, s1, s2] => [s0 * 4 + s1 / 16, s1 % 16 * 16 + s2 / 4]
  | _ => []

/-- Modelled from the spec: Buffer.from(encoded, "base64") at
src/src/index.ts line 62. -/
def base64Decode (s : JStr) : List Nat := sextetsToBytes (base64Sextets s)

/-- Modelled from the spec (design note 9): crypto.subtle.timingSafeEqual on
two equal-length byte buffers, as an accumulated bitwise OR of per-byte XOR
differences compared against zero. -/
def cryptoTimingSafeEqual (a b : List Nat) : Bool :=
  (List.zipWith Nat.xor a b).foldl Nat.lor 0 == 0

/-- Translation of timingSafeEqual, src/src/index.ts lines 21 to 32. -/
def timingSafeEqual (a b : JStr) : Bool :=
  let aBytes := utf8Encode a
  let bBytes := utf8Encode b
  if aBytes.length ≠ bBytes.length then false
  else cryptoTimingSafeEqual aBytes bBytes

/-- JavaScript String.prototype.split with a one-character separator
(no limit argument), on the code point embedding. -/
def jsSplit (sep : Nat) : JStr → List JStr
  | [] => [[]]
  | c :: cs =>
    if c = sep then [] :: jsSplit sep cs
    else
      match jsSplit sep cs with
      | [] => [[c]]
      | g :: gs => (c :: g) :: gs

/-- JavaScript hostname.split(sep)[0] for a nonempty separator string: the
prefix of the input before the first occurrence of the separator, or the
whole input when the separator does not occur (src/src/index.ts line 119). -/
def firstSplit (sep : JStr) : JStr → JStr
  | [] => []
  | c :: cs => if sep.isPrefixOf (c :: cs) then [] else c :: firstSplit sep cs

/-- JavaScript String.prototype.indexOf for a one-character needle: index of
its first occurrence, none standing for the JavaScript result -1. -/
def jsIndexOf (c : Nat) : JStr → Option Nat
  | [] => none
  | x :: xs => if x = c then some 0 else (jsIndexOf c xs).map (· + 1)

/-- Translation of lines 66 to 68 of src/src/index.ts: index := indexOf of
the first colon, user := substring(0, index), pass := substring(index + 1).
When no colon occurs, indexOf yields -1 in JavaScript, substring(0, -1)
clamps to the empty string and substring(0) is the whole input; that case is
the `none` branch here. -/
def colonSplit (credentials : JStr) : JStr × JStr :=
  match jsIndexOf 58 credentials with
  | some i => (credentials.take i, credentials.drop (i + 1))
  | none => ([], credentials)

/-- Map an option-valued function over a list, failing if any element fails. -/
def mapOpt (f : α → Option β) : List α → Option (List β)
  | [] => some []
  | a :: rest =>
    match f a, mapOpt f rest with
    | some b, some bs => some (b :: bs)
    | _, _ => none

/-- Decimal digit value of a character code. -/
def digitVal (c : Nat) : Option Nat :=
  if 48 ≤ c ∧ c ≤ 57 then some (c - 48) else none

/-- Accumulate the decimal value of a digit string. -/
def parseDecAux (acc : Nat) : JStr → Option Nat
  | [] => some acc
  | c :: cs =>
    match digitVal c with
    | some d => parseDecAux (acc * 10 + d) cs
    | none => none

/-- Modelled from the spec (section 4.3): one IPv4 octet is a nonempty run of
decimal digits with no leading zero, of value at most 255. -/
def decOctet (g : JStr) : Option Nat :=
  match g with
  | [] => none
  | c :: cs =>
    if c = 48 ∧ cs ≠ [] then none
    else
      match parseDecAux 0 (c :: cs) with
      | some v => if v ≤ 255 then some v else none
      | none => none

/-- Render a natural number in decimal; the first argument is recursion
fuel, in excess at every call site since the quotient shrinks each step. -/
def natToDecAux : Nat → Nat → JStr
  | 0, n => [48 + n % 10]
  | fuel + 1, n => if n < 10 then [48 + n] else natToDecAux fuel (n / 10) ++ [48 + n % 10]

/-- Render a natural number in decimal. -/
def natToDec (n : Nat) : JStr := natToDecAux n n

/-- Character code of one lowercase hexadecimal digit. -/
def hexDigitChar (d : Nat) : Nat := if d < 10 then 48 + d else 87 + d

/-- Render a natural number in lowercase hexadecimal, with recursion fuel. -/
def natToHexAux : Nat → Nat → JStr
  | 0, n => [hexDigitChar (n % 16)]
  | fuel + 1, n =>
    if n < 16 then [hexDigitChar n] else natToHexAux fuel (n / 16) ++ [hexDigitChar (n % 16)]

/-- Render a natural number in lowercase hexadecimal. -/
def natToHex (n : Nat) : JStr := natToHexAux n n

/-- Join a list of strings with a one-character separator. -/
def joinSep (sep : Nat) : List JStr → JStr
  | [] => []
  | [g] => g
  | g :: rest => g ++ sep :: joinSep sep rest

namespace Address4

/-- Modelled from the spec (section 4.3): the ip-address library accepts an
IPv4 literal exactly when it is four dot-separated decimal octets, each in 0
to 255, with no extraneous characters and no leading zeros. -/
def parse (s : JStr) : Option (List Nat) :=
  let parts := jsSplit 46 s
  if parts.length = 4 then mapOpt decOctet parts else none

/-- Modelled from the spec: Address4.isValid of the ip-address library. -/
def isValid (s : JStr) : Bool := (parse s).isSome

/-- Modelled from the spec: correctForm of an Address4, the canonical
dotted-decimal rendering with no leading zeros. -/
def correctForm (s : JStr) : JStr :=
  match parse s with
  | some os => joinSep 46 (os.map natToDec)
  | none => []

end Address4

/-- Hexadecimal digit value of a character code (both cases). -/
def hexDigitVal (c : Nat) : Option Nat :=
  if 48 ≤ c ∧ c ≤ 57 then some (c - 48)
  else if 97 ≤ c ∧ c ≤ 102 then some (c - 87)
  else if 65 ≤ c ∧ c ≤ 70 then some (c - 55)
  else none

/-- Accumulate the value of a hexadecimal digit string. -/
def parseHexAux (acc : Nat) : JStr → Option Nat
  | [] => some acc
  | c :: cs =>
    match hexDigitVal c with
    | some d => parseHexAux (acc * 16 + d) cs
    | none => none

/-- One 16-bit IPv6 group: one to four hexadecimal digits. -/
def hexGroup (g : JStr) : Option Nat :=
  if g = [] ∨ 4 < g.length then none else parseHexAux 0 g

/-- Parse a run of colon-separated groups, allowing an embedded IPv4 literal
as the final group (which contributes two 16-bit groups). -/
def groupsWithTail (gs : List JStr) : Option (List Nat) :=
  match gs.getLast? with
  | none => some []
  | some last =>
    if last.contains 46 then
      match mapOpt hexGroup gs.dropLast, Address4.parse last with
      | some hs, some [a, b, c, d] => some (hs ++ [a * 256 + b, c * 256 + d])
      | _, _ => none
    else mapOpt hexGroup gs

/-- Index of the first occurrence of a double colon, if any. -/
def findDD : JStr → Option Nat
  | [] => none
  | [_] => none
  | a :: b :: rest =>
    if a = 58 ∧ b = 58 then some 0 else (findDD (b :: rest)).map (· + 1)

/-- Length of the leading run of zero groups. -/
def countZeros : List Nat → Nat
  | 0 :: rest => countZeros rest + 1
  | _ => 0

/-- Maximal runs of zero groups, as pairs of start index and length; the
first argument is recursion fuel, in excess at every call site since at
least one element is consumed per step. -/
def zeroRunsAux : Nat → Nat → List Nat → List (Nat × Nat)
  | 0, _, _ => []
  | fuel + 1, i, l =>
    match l with
    | [] => []
    | g :: rest =>
      if g = 0 then
        let len := countZeros (g :: rest)
        (i, len) :: zeroRunsAux fuel (i + len) (List.drop (len - 1) rest)
      else zeroRunsAux fuel (i + 1) rest

/-- Maximal runs of zero groups of a group list. -/
def zeroRuns (gs : List Nat) : List (Nat × Nat) := zeroRunsAux gs.length 0 gs

/-- Longest run of at least two zero groups, leftmost on ties. -/
def bestZeroRun (gs : List Nat) : Option (Nat × Nat) :=
  (zeroRuns gs).foldl
    (fun best r =>
      match best with
      | none => if 2 ≤ r.2 then some r else none
      | some b => if b.2 < r.2 then some r else some b)
    none

namespace Address6

/-- Modelled from the spec (section 4.3): the ip-address library accepts an
IPv6 literal in standard colon-hex notation, with at most one double-colon
compression and an optional embedded IPv4 tail; the result is the list of
eight 16-bit groups. -/
def parse (s : JStr) : Option (List Nat) :=
  match findDD s with
  | some i =>
    let left := s.take i
    let right := s.drop (i + 2)
    if findDD right ≠ none then none
    else
      let lg := if left = [] then [] else jsSplit 58 left
      let rg := if right = [] then [] else jsSplit 58 right
      match mapOpt hexGroup lg, groupsWithTail rg with
      | some ls, some rs =>
        if ls.length + rs.length ≤ 7 then
          some (ls ++ List.replicate (8 - (ls.length + rs.length)) 0 ++ rs)
        else none
      | _, _ => none
  | none =>
    match groupsWithTail (jsSplit 58 s) with
    | some gs => if gs.length = 8 then some gs else none
    | none => none

/-- Modelled from the spec: Address6.isValid of the ip-address library. -/
def isValid (s : JStr) : Bool := (parse s).isSome

/-- Modelled from the spec: correctForm of an Address6, lowercase hex groups
with no leading zeros and the longest zero run compressed to a double colon. -/
def correctForm (s : JStr) : JStr :=
  match parse s with
  | none => []
  | some gs =>
    match bestZeroRun gs with
    | none => joinSep 58 (gs.map natToHex)
    | some (i, len) =>
      joinSep 58 ((gs.take i).map natToHex) ++ [58, 58] ++
        joinSep 58 ((gs.drop (i + len)).map natToHex)

end Address6

/-- DNS zone as returned by the provider zones listing (spec section 3). -/
structure Zone where
  id : JStr
  name : JStr
deriving DecidableEq

/-- DNS record as returned by the provider records listing.  The handler
reads only the name, the id (optional in the SDK response type, hence the
guard record?.id at line 144) and, for completeness of the match-key
discussion, the type. -/
structure DNSRecord where
  id : Option JStr
  name : JStr
  type : JStr
deriving DecidableEq

/-- Record type tag of the body built for an upsert. -/
inductive RecType
  | A
  | AAAA
deriving DecidableEq

/-- Record body sent to the provider on create and update,
src/src/index.ts lines 117 to 136. -/
structure RecordBody where
  content : JStr
  name : JStr
  ttl : Nat
  proxied : Bool
  type : RecType
deriving DecidableEq

/-- One provider API call issued by the handler, in issue order.  The
zone id passed inside the create and update parameter objects is recorded
alongside the body. -/
inductive Call
  | zonesList
  | dnsRecordsList (zoneId : JStr)
  | dnsRecordsCreate (zoneId : JStr) (body : RecordBody)
  | dnsRecordsUpdate (recordId : JStr) (zoneId : JStr) (body : RecordBody)
deriving DecidableEq

/-- Whether a call writes provider state. -/
def isWriteCall : Call → Bool
  | Call.dnsRecordsCreate _ _ => true
  | Call.dnsRecordsUpdate _ _ _ => true
  | _ => false

/-- The provider SDK, as the outcome of each of its operations; an error
value models the promise rejecting (an exception).  The list results model
the .result field of the SDK responses used at lines 99 and 115. -/
structure Provider where
  zonesList : Except String (List Zone)
  dnsRecordsList : JStr → Except String (List DNSRecord)
  dnsRecordsCreate : JStr → RecordBody → Except String Unit
  dnsRecordsUpdate : JStr → JStr → RecordBody → Except String Unit

/-- Whether a given call fails when issued against a given provider. -/
def callFails (cf : Provider) : Call → Bool
  | Call.zonesList => match cf.zonesList with | Except.error _ => true | _ => false
  | Call.dnsRecordsList z => match cf.dnsRecordsList z with | Except.error _ => true | _ => false
  | Call.dnsRecordsCreate z b => match cf.dnsRecordsCreate z b with | Except.error _ => true | _ => false
  | Call.dnsRecordsUpdate r z b => match cf.dnsRecordsUpdate r z b with | Except.error _ => true | _ => false

/-- HTTP response: status, body, and the WWW-Authenticate header if set. -/
structure Response where
  status : Nat
  body : String
  wwwAuthenticate : Option String
deriving DecidableEq

/-- Worker environment bindings consumed by the handler logic.  The
CF_API_TOKEN binding only parameterizes the SDK client and is outside the
embedded logic. -/
structure Env where
  BASIC_USER : JStr
  BASIC_PASS : JStr
deriving DecidableEq

/-- The parts of the inbound request the handler reads: the Authorization
header (null when absent) and the hostname and myip query parameters
(null when absent; the empty string is falsy in the source checks). -/
structure Request where
  authorization : Option JStr
  hostname : Option JStr
  myip : Option JStr

/-- Response of lines 44 to 52: missing or empty Authorization header. -/
def needLoginScope : Response :=
  ⟨401, "You need to login.", some "Basic realm=\"my scope\", charset=\"UTF-8\""⟩

/-- Response of lines 74 to 81: credentials did not match. -/
def needLoginDDNS : Response :=
  ⟨401, "You need to login.", some "Basic realm=\"Cloudflare DDNS Worker\", charset=\"UTF-8\""⟩

/-- Response of lines 56 to 60. -/
def malformedAuth : Response := ⟨400, "Malformed authorization header.", none⟩

/-- Response of line 88. -/
def noHostname : Response := ⟨400, "No hostname provided", none⟩

/-- Response of line 93. -/
def noMyip : Response := ⟨400, "No myip provided", none⟩

/-- Response of line 101. -/
def zoneNotFound : Response := ⟨400, "Zone not found", none⟩

/-- Response of lines 109 and 140. -/
def invalidIP : Response := ⟨400, "Invalid IP address", none⟩

/-- Response of line 147 (status defaults to 200). -/
def createdOK : Response := ⟨200, "DNS record created successfully", none⟩

/-- Response of line 158 (status defaults to 200). -/
def updatedOK : Response := ⟨200, "DNS record updated successfully", none⟩

/-- Response of line 161: caught provider exception. -/
def dnsError : Response := ⟨500, "Error modifying DNS record", none⟩

/-- Translation of lines 62 to 73: decode the token, split the credentials
on the first colon, and compare both parts with timingSafeEqual. -/
def authenticate (env : Env) (encoded : JStr) : Bool :=
  let credentials := utf8Decode (base64Decode encoded)
  let user := (colonSplit credentials).1
  let pass := (colonSplit credentials).2
  timingSafeEqual env.BASIC_USER user && timingSafeEqual env.BASIC_PASS pass

/-- Translation of line 99: first zone whose name the hostname ends with. -/
def zoneResolve (zones : List Zone) (hostname : JStr) : Option Zone :=
  zones.find? (fun z => z.name.isSuffixOf hostname)

/-- Translation of line 119: the record name is the at-sign for the zone
apex, otherwise hostname.split(dot ++ zone name)[0]. -/
def recordName (hostname zoneName : JStr) : JStr :=
  if hostname == zoneName then jstr "@" else firstSplit (46 :: zoneName) hostname

/-- Translation of lines 117 to 136: the record body for the upsert, tagged
A or AAAA according to the address classification, none when neither form
is valid (unreachable after the line 108 check). -/
def newRecordFor (myip hostname zoneName : JStr) : Option RecordBody :=
  if Address4.isValid myip then
    some ⟨Address4.correctForm myip, recordName hostname zoneName, 300, false, RecType.A⟩
  else if Address6.isValid myip then
    some ⟨Address6.correctForm myip, recordName hostname zoneName, 300, false, RecType.AAAA⟩
  else none

/-- Translation of the guard at line 144: the update key exists exactly when
a record was found and its id is present and nonempty (record?.id is falsy
for a missing record, a missing id, and an empty id). -/
def updateKey (record : Option DNSRecord) : Option JStr :=
  match record with
  | none => none
  | some r =>
    match r.id with
    | none => none
    | some rid => if rid = [] then none else some rid

/-- Translation of lines 43 to 94: authentication and parameter validation,
ending either in an early response or in the validated hostname and myip. -/
def gate (env : Env) (request : Request) : Except Response (JStr × JStr) :=
  match request.authorization with
  | none => Except.error needLoginScope
  | some authorization =>
    if authorization = [] then Except.error needLoginScope
    else
      let parts := jsSplit 32 authorization
      let scheme := parts.headD []
      match parts[1]? with
      | none => Except.error malformedAuth
      | some encoded =>
        if encoded = [] ∨ scheme ≠ jstr "Basic" then Except.error malformedAuth
        else if authenticate env encoded = false then Except.error needLoginDDNS
        else
          match request.hostname with
          | none => Except.error noHostname
          | some hostname =>
            if hostname = [] then Except.error noHostname
            else
              match request.myip with
              | none => Except.error noMyip
              | some myip =>
                if myip = [] then Except.error noMyip
                else Except.ok (hostname, myip)

/-- Translation of lines 96 to 162: zone listing and resolution, address
classification, record listing and resolution, and the upsert.  The zones
listing at line 96 sits outside the try block that starts at line 104, so
its exception propagates as an error result; exceptions of the three calls
inside the try block are caught and mapped to the 500 response.  The second
component of the result records the provider calls issued, in order. -/
def handleDns (hostname myip : JStr) (cf : Provider) :
    Except String (Response × List Call) :=
  match cf.zonesList with
  | Except.error e => Except.error e
  | Except.ok zones =>
    match zoneResolve zones hostname with
    | none => Except.ok (zoneNotFound, [Call.zonesList])
    | some zone =>
      if Address4.isValid myip || Address6.isValid myip then
        match cf.dnsRecordsList zone.id with
        | Except.error _ =>
          Except.ok (dnsError, [Call.zonesList, Call.dnsRecordsList zone.id])
        | Except.ok records =>
          let record := records.find? (fun r => r.name == hostname)
          match newRecordFor myip hostname zone.name with
          | none => Except.ok (invalidIP, [Call.zonesList, Call.dnsRecordsList zone.id])
          | some newRecord =>
            match updateKey record with
            | none =>
              match cf.dnsRecordsCreate zone.id newRecord with
              | Except.error _ =>
                Except.ok (dnsError,
                  [Call.zonesList, Call.dnsRecordsList zone.id,
                   Call.dnsRecordsCreate zone.id newRecord])
              | Except.ok _ =>
                Except.ok (createdOK,
                  [Call.zonesList, Call.dnsRecordsList zone.id,
                   Call.dnsRecordsCreate zone.id newRecord])
            | some rid =>
              match cf.dnsRecordsUpdate rid zone.id newRecord with
              | Except.error _ =>
                Except.ok (dnsError,
                  [Call.zonesList, Call.dnsRecordsList zone.id,
                   Call.dnsRecordsUpdate rid zone.id newRecord])
              | Except.ok _ =>
                Except.ok (updatedOK,
                  [Call.zonesList, Call.dnsRecordsList zone.id,
                   Call.dnsRecordsUpdate rid zone.id newRecord])
      else Except.ok (invalidIP, [Call.zonesList])

/-- Translation of the whole fetch handler of src/src/index.ts: the early
gate stage followed by the DNS stage.  An ok result is the HTTP response
together with the provider calls issued; an error result is an uncaught
exception escaping the handler. -/
def fetch (env : Env) (request : Request) (cf : Provider) :
    Except String (Response × List Call) :=
  match gate env request with
  | Except.error resp => Except.ok (resp, [])
  | Except.ok (hostname, myip) => handleDns hostname myip cf

/-- Modelled from the spec words of section 4.6, for comparison with the
source: the record name is the at-sign for the zone apex, otherwise the
hostname with the trailing dot-plus-zone-name suffix stripped. -/
def stripTrailing (h suffix : JStr) : JStr :=
  if suffix.isSuffixOf h then h.take (h.length - suffix.length) else h

/-- Modelled from the spec words of section 4.6: the upsert record name as
the specification describes it. -/
def specRecordName (hostname zoneName : JStr) : JStr :=
  if hostname == zoneName then jstr "@" else stripTrailing hostname (46 :: zoneName)

/-- Decidable equality of outcomes, for evaluating the handler on concrete
inputs. -/
instance {ε α : Type} [DecidableEq ε] [DecidableEq α] : DecidableEq (Except ε α)
  | Except.error e, Except.error f =>
    if h : e = f then Decidable.isTrue (by rw [h])
    else Decidable.isFalse (by intro hh; cases hh; exact h rfl)
  | Except.error _, Except.ok _ => Decidable.isFalse (by intro h; cases h)
  | Except.ok _, Except.error _ => Decidable.isFalse (by intro h; cases h)
  | Except.ok a, Except.ok b =>
    if h : a = b then Decidable.isTrue (by rw [h])
    else Decidable.isFalse (by intro hh; cases hh; exact h rfl)

/-! Concrete fixtures used as witnesses and counterexamples.  The header
token dTpw is the base64 encoding of the credentials u colon p. -/

/-- Environment with username u and password p. -/
def cEnv : Env := ⟨jstr "u", jstr "p"⟩

/-- Valid Basic authorization header for cEnv. -/
def cAuth : JStr := jstr "Basic dTpw"

/-- Request for host home.example.com with an IPv4 myip. -/
def cReq : Request := ⟨some cAuth, some (jstr "home.example.com"), some (jstr "203.0.113.5")⟩

/-- Request whose hostname matches no zone and whose myip is invalid. -/
def cReqNoZone : Request := ⟨some cAuth, some (jstr "host.elsewhere.net"), some (jstr "notanip")⟩

/-- Request whose hostname matches a zone but whose myip is invalid. -/
def cReqBadIP : Request := ⟨some cAuth, some (jstr "home.example.com"), some (jstr "notanip")⟩

/-- Request whose hostname contains the dotted zone name twice. -/
def cReqDouble : Request :=
  ⟨some cAuth, some (jstr "a.example.com.example.com"), some (jstr "203.0.113.5")⟩

/-- Zone fixture for example.com. -/
def cZone : Zone := ⟨jstr "z1", jstr "example.com"⟩

/-- Provider with one zone, no records, and all calls succeeding. -/
def cfGood : Provider :=
  ⟨Except.ok [cZone], fun _ => Except.ok [],
   fun _ _ => Except.ok (), fun _ _ _ => Except.ok ()⟩

/-- Provider whose zones listing throws. -/
def cfBoom : Provider :=
  ⟨Except.error "boom", fun _ => Except.ok [],
   fun _ _ => Except.ok (), fun _ _ _ => Except.ok ()⟩

/-- Provider whose records listing throws. -/
def cfRecFail : Provider :=
  ⟨Except.ok [cZone], fun _ => Except.error "listfail",
   fun _ _ => Except.ok (), fun _ _ _ => Except.ok ()⟩

/-- Provider returning one record matching the hostname with an empty id. -/
def cfNoId : Provider :=
  ⟨Except.ok [cZone], fun _ => Except.ok [⟨some [], jstr "home.example.com", jstr "A"⟩],
   fun _ _ => Except.ok (), fun _ _ _ => Except.ok ()⟩

/-- Provider returning one record matching the hostname with id rec1. -/
def cfUpd : Provider :=
  ⟨Except.ok [cZone],
   fun _ => Except.ok [⟨some (jstr "rec1"), jstr "home.example.com", jstr "A"⟩],
   fun _ _ => Except.ok (), fun _ _ _ => Except.ok ()⟩

/-- The record body built for cReq against cZone. -/
def cBody : RecordBody := ⟨jstr "203.0.113.5", jstr "home", 300, false, RecType.A⟩

/-- The record body built for cReqDouble against cZone. -/
def cBodyA : RecordBody := ⟨jstr "203.0.113.5", jstr "a", 300, false, RecType.A⟩

/-! Helper lemmas about the constant-time comparison. -/

lemma lor_eq_zero (a b : Nat) : a ||| b = 0 ↔ a = 0 ∧ b = 0 := by
  constructor
  · intro h
    have ha : a = 0 := by
      refine Nat.eq_of_testBit_eq fun i => ?_
      have h2 : (a ||| b).testBit i = Nat.testBit 0 i := by rw [h]
      rw [Nat.testBit_or] at h2
      simp only [Nat.zero_testBit] at h2 ⊢
      exact (Bool.or_eq_false_iff.mp h2).1
    have hb : b = 0 := by
      refine Nat.eq_of_testBit_eq fun i => ?_
      have h2 : (a ||| b).testBit i = Nat.testBit 0 i := by rw [h]
      rw [Nat.testBit_or] at h2
      simp only [Nat.zero_testBit] at h2 ⊢
      exact (Bool.or_eq_false_iff.mp h2).2
    exact ⟨ha, hb⟩
  · rintro ⟨rfl, rfl⟩; rfl

lemma foldl_lor_eq_zero (l : List Nat) (a : Nat) :
    l.foldl Nat.lor a = 0 ↔ a = 0 ∧ ∀ x ∈ l, x = 0 := by
  induction l generalizing a with
  | nil => simp
  | cons x xs ih =>
    simp only [List.foldl_cons, List.mem_cons]
    rw [ih]
    have : Nat.lor a x = a ||| x := rfl
    rw [this, lor_eq_zero]
    constructor
    · rintro ⟨⟨ha, hx⟩, hrest⟩
      exact ⟨ha, fun y hy => hy.elim (fun h => h ▸ hx) (hrest y)⟩
    · rintro ⟨ha, hall⟩
      exact ⟨⟨ha, hall x (Or.inl rfl)⟩, fun y hy => hall y (Or.inr hy)⟩

lemma zipWith_xor_zero (a b : List Nat) (h : a.length = b.length) :
    (∀ x ∈ List.zipWith Nat.xor a b, x = 0) ↔ a = b := by
  induction a generalizing b with
  | nil =>
    cases b with
    | nil => simp
    | cons y ys => simp at h
  | cons x xs ih =>
    cases b with
    | nil => simp at h
    | cons y ys =>
      simp only [List.length_cons, Nat.succ.injEq] at h
      simp only [List.zipWith_cons_cons, List.mem_cons, List.cons.injEq]
      rw [← ih ys h]
      constructor
      · intro hall
        refine ⟨Nat.xor_eq_zero.mp (hall _ (Or.inl rfl)), fun z hz => hall z (Or.inr hz)⟩
      · rintro ⟨hxy, hrest⟩ z hz
        rcases hz with h1 | h2
        · rw [h1]; exact Nat.xor_eq_zero.mpr hxy
        · exact hrest z h2

lemma cryptoTimingSafeEqual_iff (a b : List Nat) (h : a.length = b.length) :
    cryptoTimingSafeEqual a b = true ↔ a = b := by
  unfold cryptoTimingSafeEqual
  rw [beq_iff_eq, foldl_lor_eq_zero, zipWith_xor_zero a b h]
  simp

lemma timingSafeEqual_iff (a b : JStr) :
    timingSafeEqual a b = true ↔ utf8Encode a = utf8Encode b := by
  unfold timingSafeEqual
  by_cases h : (utf8Encode a).length = (utf8Encode b).length
  · simp only [h, ne_eq, not_true_eq_false, if_false]
    simpa using cryptoTimingSafeEqual_iff _ _ h
  · simp only [ne_eq, h, not_false_eq_true, if_true]
    constructor
    · intro hf; exact absurd hf (by simp)
    · intro he; exact absurd (congrArg List.length he) h

lemma timingSafeEqual_len_ne (a b : JStr)
    (h : (utf8Encode a).length ≠ (utf8Encode b).length) :
    timingSafeEqual a b = false := by
  unfold timingSafeEqual
  simp only [ne_eq, h, not_false_eq_true, if_true]

/-! Helper lemmas about UTF-8 encoding and decoding. -/

lemma utf8EncodeChar_ne_nil (c : Nat) : utf8EncodeChar c ≠ [] := by
  unfold utf8EncodeChar
  split_ifs <;> simp

lemma utf8Encode_eq_nil_iff (s : JStr) : utf8Encode s = [] ↔ s = [] := by
  cases s with
  | nil => simp [utf8Encode]
  | cons c cs =>
    simp only [utf8Encode, List.append_eq_nil]
    exact ⟨fun h => absurd h.1 (utf8EncodeChar_ne_nil c), fun h => by simp at h⟩

lemma utf8EncodeChar_bytes_lt (c : Nat) (h : c < 0x110000) :
    ∀ b ∈ utf8EncodeChar c, b < 256 := by
  intro b hb
  unfold utf8EncodeChar at hb
  split_ifs at hb <;> simp only [List.mem_cons, List.mem_singleton, List.not_mem_nil] at hb <;>
    rcases hb with rfl | hb <;> first | omega |
      (rcases hb with rfl | hb <;> first | omega |
        (rcases hb with rfl | hb <;> first | omega |
          (rcases hb with rfl | hb <;> first | omega | cases hb)))

lemma utf8Encode_bytes_lt (s : JStr) (hv : validJStr s) :
    ∀ b ∈ utf8Encode s, b < 256 := by
  induction s with
  | nil => intro b hb; cases hb
  | cons c cs ih =>
    intro b hb
    rcases List.mem_append.mp hb with h1 | h2
    · exact utf8EncodeChar_bytes_lt c (hv c (List.mem_cons_self c cs)) b h1
    · exact ih (fun x hx => hv x (List.mem_cons_of_mem c hx)) b h2

lemma utf8Decode_one (c : Nat) (h : c < 0x80) (bs : List Nat) :
    utf8Decode (c :: bs) = c :: utf8Decode bs := by
  rcases bs with _ | ⟨x, _ | ⟨y, _ | ⟨z, t⟩⟩⟩ <;> simp [utf8Decode, h]

lemma utf8Decode_two (c : Nat) (h1 : 0x80 ≤ c) (h2 : c < 0x800) (bs : List Nat) :
    utf8Decode ((0xC0 + c / 64) :: (0x80 + c % 64) :: bs) = c :: utf8Decode bs := by
  have e1 : ¬(0xC0 + c / 64 < 0x80) := by omega
  have e2 : ¬(0xC0 + c / 64 < 0xC0) := by omega
  have e3 : 0xC0 + c / 64 < 0xE0 := by omega
  have e4 : contB (0x80 + c % 64) := by unfold contB; omega
  have ev : twoVal (0xC0 + c / 64) (0x80 + c % 64) = c := by unfold twoVal; omega
  rcases bs with _ | ⟨x, _ | ⟨y, _ | ⟨z, t⟩⟩⟩ <;>
    simp [utf8Decode, e1, e2, e3, e4, ev]

lemma utf8Decode_three (c : Nat) (h1 : 0x800 ≤ c) (h2 : c < 0x10000) (bs : List Nat) :
    utf8Decode ((0xE0 + c / 4096) :: (0x80 + c / 64 % 64) :: (0x80 + c % 64) :: bs) =
      c :: utf8Decode bs := by
  have e1 : ¬(0xE0 + c / 4096 < 0x80) := by omega
  have e2 : ¬(0xE0 + c / 4096 < 0xC0) := by omega
  have e3 : ¬(0xE0 + c / 4096 < 0xE0) := by omega
  have e4 : 0xE0 + c / 4096 < 0xF0 := by omega
  have e5 : contB (0x80 + c / 64 % 64) := by unfold contB; omega
  have e6 : contB (0x80 + c % 64) := by unfold contB; omega
  have ev : threeVal (0xE0 + c / 4096) (0x80 + c / 64 % 64) (0x80 + c % 64) = c := by
    unfold threeVal; omega
  rcases bs with _ | ⟨x, _ | ⟨y, _ | ⟨z, t⟩⟩⟩ <;>
    simp [utf8Decode, e1, e2, e3, e4, e5, e6, ev]

lemma utf8Decode_four (c : Nat) (h1 : 0x10000 ≤ c) (h2 : c < 0x110000) (bs : List Nat) :
    utf8Decode ((0xF0 + c / 262144) :: (0x80 + c / 4096 % 64) :: (0x80 + c / 64 % 64) ::
      (0x80 + c % 64) :: bs) = c :: utf8Decode bs := by
  have e1 : ¬(0xF0 + c / 262144 < 0x80) := by omega
  have e2 : ¬(0xF0 + c / 262144 < 0xC0) := by omega
  have e3 : ¬(0xF0 + c / 262144 < 0xE0) := by omega
  have e4 : ¬(0xF0 + c / 262144 < 0xF0) := by omega
  have e5 : contB (0x80 + c / 4096 % 64) := by unfold contB; omega
  have e6 : contB (0x80 + c / 64 % 64) := by unfold contB; omega
  have e7 : contB (0x80 + c % 64) := by unfold contB; omega
  have ev : fourVal (0xF0 + c / 262144) (0x80 + c / 4096 % 64) (0x80 + c / 64 % 64)
      (0x80 + c % 64) = c := by
    unfold fourVal
    have hx : (0xF0 + c / 262144 - 0xF0) * 262144 + (0x80 + c / 4096 % 64 - 0x80) * 4096 +
        (0x80 + c / 64 % 64 - 0x80) * 64 + (0x80 + c % 64 - 0x80) = c := by omega
    simp only [hx, if_pos h2]
  simp [utf8Decode, e1, e2, e3, e4, e5, e6, e7, ev]

lemma utf8_roundtrip (s : JStr) (hv : validJStr s) :
    utf8Decode (utf8Encode s) = s := by
  induction s with
  | nil => show utf8Decode [] = []; simp [utf8Decode]
  | cons c cs ih =>
    have hc : c < 0x110000 := hv c (List.mem_cons_self c cs)
    have hv2 : validJStr cs := fun x hx => hv x (List.mem_cons_of_mem c hx)
    show utf8Decode (utf8EncodeChar c ++ utf8Encode cs) = c :: cs
    unfold utf8EncodeChar
    split_ifs with h1 h2 h3
    · rw [List.cons_append, List.nil_append, utf8Decode_one c h1, ih hv2]
    · simp only [List.cons_append, List.nil_append]
      rw [utf8Decode_two c (by omega) h2, ih hv2]
    · simp only [List.cons_append, List.nil_append]
      rw [utf8Decode_three c (by omega) h3, ih hv2]
    · simp only [List.cons_append, List.nil_append]
      rw [utf8Decode_four c (by omega) hc, ih hv2]

lemma utf8Encode_inj {a b : JStr} (ha : validJStr a) (hb : validJStr b)
    (h : utf8Encode a = utf8Encode b) : a = b := by
  rw [← utf8_roundtrip a ha, ← utf8_roundtrip b hb, h]

lemma validJStr_nil : validJStr [] := fun c hc => absurd hc (List.not_mem_nil c)

lemma validJStr_cons {x : Nat} {l : JStr} (hx : x < 0x110000) (hl : validJStr l) :
    validJStr (x :: l) := by
  intro c hc
  rcases List.mem_cons.mp hc with rfl | hc
  · exact hx
  · exact hl c hc

lemma twoVal_lt {b b1 : Nat} (hb : b < 0xE0) (h : contB b1) : twoVal b b1 < 0x110000 := by
  unfold twoVal contB at *; omega

lemma threeVal_lt {b b1 b2 : Nat} (hb : b < 0xF0) (h : contB b1 ∧ contB b2) :
    threeVal b b1 b2 < 0x110000 := by
  unfold threeVal contB at *; omega

lemma fourVal_lt {b b1 b2 b3 : Nat} : fourVal b b1 b2 b3 < 0x110000 := by
  unfold fourVal; split_ifs <;> omega

lemma utf8Decode_valid_aux (n : Nat) : ∀ bs : List Nat, bs.length ≤ n → validJStr (utf8Decode bs) := by
  induction n with
  | zero =>
    intro bs h
    have hb : bs = [] := List.length_eq_zero.mp (Nat.le_zero.mp h)
    subst hb
    rw [utf8Decode]
    exact validJStr_nil
  | succ n ih =>
    intro bs hlen
    rcases bs with _ | ⟨b, _ | ⟨b1, _ | ⟨b2, _ | ⟨b3, t⟩⟩⟩⟩
    · rw [utf8Decode]; exact validJStr_nil
    · rw [utf8Decode]; split_ifs <;> exact validJStr_cons (by omega) validJStr_nil
    · simp only [List.length_cons, List.length_nil] at hlen
      rw [utf8Decode]; split_ifs
      · exact validJStr_cons (by omega)
          (ih [b1] (by simp only [List.length_cons, List.length_nil]; omega))
      · exact validJStr_cons (by omega)
          (ih [b1] (by simp only [List.length_cons, List.length_nil]; omega))
      · exact validJStr_cons (twoVal_lt (by omega) (by assumption)) validJStr_nil
      · exact validJStr_cons (by omega)
          (ih [b1] (by simp only [List.length_cons, List.length_nil]; omega))
      · exact validJStr_cons (by omega)
          (ih [b1] (by simp only [List.length_cons, List.length_nil]; omega))
    · simp only [List.length_cons, List.length_nil] at hlen
      rw [utf8Decode]; split_ifs
      · exact validJStr_cons (by omega)
          (ih [b1, b2] (by simp only [List.length_cons, List.length_nil]; omega))
      · exact validJStr_cons (by omega)
          (ih [b1, b2] (by simp only [List.length_cons, List.length_nil]; omega))
      · exact validJStr_cons (twoVal_lt (by omega) (by assumption))
          (ih [b2] (by simp only [List.length_cons, List.length_nil]; omega))
      · exact validJStr_cons (by omega)
          (ih [b1, b2] (by simp only [List.length_cons, List.length_nil]; omega))
      · exact validJStr_cons (threeVal_lt (by omega) (by assumption)) validJStr_nil
      · exact validJStr_cons (by omega)
          (ih [b1, b2] (by simp only [List.length_cons, List.length_nil]; omega))
      · exact validJStr_cons (by omega)
          (ih [b1, b2] (by simp only [List.length_cons, List.length_nil]; omega))
    · simp only [List.length_cons] at hlen
      rw [utf8Decode]; split_ifs
      · exact validJStr_cons (by omega)
          (ih (b1 :: b2 :: b3 :: t) (by simp only [List.length_cons]; omega))
      · exact validJStr_cons (by omega)
          (ih (b1 :: b2 :: b3 :: t) (by simp only [List.length_cons]; omega))
      · exact validJStr_cons (twoVal_lt (by omega) (by assumption))
          (ih (b2 :: b3 :: t) (by simp only [List.length_cons]; omega))
      · exact validJStr_cons (by omega)
          (ih (b1 :: b2 :: b3 :: t) (by simp only [List.length_cons]; omega))
      · exact validJStr_cons (threeVal_lt (by omega) (by assumption))
          (ih (b3 :: t) (by simp only [List.length_cons]; omega))
      · exact validJStr_cons (by omega)
          (ih (b1 :: b2 :: b3 :: t) (by simp only [List.length_cons]; omega))
      · exact validJStr_cons fourVal_lt (ih t (by omega))
      · exact validJStr_cons (by omega)
          (ih (b1 :: b2 :: b3 :: t) (by simp only [List.length_cons]; omega))

lemma utf8Decode_valid (bs : List Nat) : validJStr (utf8Decode bs) :=
  utf8Decode_valid_aux bs.length bs (Nat.le_refl _)

/-! Helper lemmas about base64. -/

lemma charSextet_sextetChar : ∀ n : Nat, n < 64 → charSextet (sextetChar n) = some n := by
  decide

lemma charSextet_pad : charSextet 61 = none := by decide

lemma sextetChar_ne_space (n : Nat) : sextetChar n ≠ 32 := by
  unfold sextetChar; split_ifs <;> omega

lemma mem_base64Encode {c : Nat} :
    ∀ {bs : List Nat}, c ∈ base64Encode bs → (∃ n, c = sextetChar n) ∨ c = 61 := by
  intro bs
  induction bs using base64Encode.induct with
  | case1 => intro h; exact absurd h (List.not_mem_nil c)
  | case2 b0 =>
    intro h
    simp only [base64Encode, List.mem_cons, List.not_mem_nil, or_false] at h
    rcases h with rfl | rfl | rfl | rfl
    · exact Or.inl ⟨_, rfl⟩
    · exact Or.inl ⟨_, rfl⟩
    · exact Or.inr rfl
    · exact Or.inr rfl
  | case3 b0 b1 =>
    intro h
    simp only [base64Encode, List.mem_cons, List.not_mem_nil, or_false] at h
    rcases h with rfl | rfl | rfl | rfl
    · exact Or.inl ⟨_, rfl⟩
    · exact Or.inl ⟨_, rfl⟩
    · exact Or.inl ⟨_, rfl⟩
    · exact Or.inr rfl
  | case4 b0 b1 b2 rest ih =>
    intro h
    simp only [base64Encode, List.mem_cons] at h
    rcases h with rfl | rfl | rfl | rfl | hmem
    · exact Or.inl ⟨_, rfl⟩
    · exact Or.inl ⟨_, rfl⟩
    · exact Or.inl ⟨_, rfl⟩
    · exact Or.inl ⟨_, rfl⟩
    · exact ih hmem

lemma base64Encode_no_space {bs : List Nat} : 32 ∉ base64Encode bs := by
  intro h
  rcases mem_base64Encode h with ⟨n, hn⟩ | h61
  · exact sextetChar_ne_space n hn.symm
  · exact absurd h61 (by omega)

lemma base64Encode_ne_nil {bs : List Nat} (h : bs ≠ []) : base64Encode bs ≠ [] := by
  rcases bs with _ | ⟨b0, _ | ⟨b1, _ | ⟨b2, t⟩⟩⟩
  · exact absurd rfl h
  all_goals simp [base64Encode]

lemma base64_roundtrip :
    ∀ bs : List Nat, (∀ b ∈ bs, b < 256) → base64Decode (base64Encode bs) = bs := by
  intro bs
  unfold base64Decode
  induction bs using base64Encode.induct with
  | case1 => intro _; simp [base64Encode, base64Sextets, sextetsToBytes]
  | case2 b0 =>
    intro h
    have hb0 : b0 < 256 := h b0 (by simp)
    have s0 := charSextet_sextetChar (b0 / 4) (by omega)
    have s1 := charSextet_sextetChar (b0 % 4 * 16) (by omega)
    simp only [base64Encode, base64Sextets, s0, s1, charSextet_pad, sextetsToBytes]
    simp only [List.cons.injEq, and_true]
    omega
  | case3 b0 b1 =>
    intro h
    have hb0 : b0 < 256 := h b0 (by simp)
    have hb1 : b1 < 256 := h b1 (by simp)
    have s0 := charSextet_sextetChar (b0 / 4) (by omega)
    have s1 := charSextet_sextetChar (b0 % 4 * 16 + b1 / 16) (by omega)
    have s2 := charSextet_sextetChar (b1 % 16 * 4) (by omega)
    simp only [base64Encode, base64Sextets, s0, s1, s2, charSextet_pad, sextetsToBytes]
    simp only [List.cons.injEq, and_true]
    exact ⟨by omega, by omega⟩
  | case4 b0 b1 b2 rest ih =>
    intro h
    have hb0 : b0 < 256 := h b0 (by simp)
    have hb1 : b1 < 256 := h b1 (by simp)
    have hb2 : b2 < 256 := h b2 (by simp)
    have hrest : ∀ b ∈ rest, b < 256 := fun b hb => h b (by simp [hb])
    have s0 := charSextet_sextetChar (b0 / 4) (by omega)
    have s1 := charSextet_sextetChar (b0 % 4 * 16 + b1 / 16) (by omega)
    have s2 := charSextet_sextetChar (b1 % 16 * 4 + b2 / 64) (by omega)
    have s3 := charSextet_sextetChar (b2 % 64) (by omega)
    simp only [base64Encode, base64Sextets, s0, s1, s2, s3, sextetsToBytes]
    rw [ih hrest]
    simp only [List.cons.injEq, and_true]
    exact ⟨by omega, by omega, by omega⟩

/-! Helper lemmas about the JavaScript string operations. -/

lemma utf8Encode_append (u v : JStr) :
    utf8Encode (u ++ v) = utf8Encode u ++ utf8Encode v := by
  induction u with
  | nil => simp [utf8Encode]
  | cons c cs ih => simp [utf8Encode, ih]

lemma jsIndexOf_not_mem {c : Nat} : ∀ {l : JStr}, c ∉ l → jsIndexOf c l = none := by
  intro l
  induction l with
  | nil => intro _; rfl
  | cons x xs ih =>
    intro h
    have hx : ¬(x = c) := fun hh => h (hh ▸ List.mem_cons_self x xs)
    rw [jsIndexOf, if_neg hx, ih (fun hm => h (List.mem_cons_of_mem x hm))]
    rfl

lemma jsIndexOf_append {c : Nat} : ∀ {u : JStr} (v : JStr), c ∉ u →
    jsIndexOf c (u ++ c :: v) = some u.length := by
  intro u
  induction u with
  | nil => intro v _; simp [jsIndexOf]
  | cons x xs ih =>
    intro v h
    have hx : ¬(x = c) := fun hh => h (hh ▸ List.mem_cons_self x xs)
    rw [List.cons_append, jsIndexOf, if_neg hx,
      ih v (fun hm => h (List.mem_cons_of_mem x hm))]
    rfl

lemma colonSplit_append {u p : JStr} (h : (58 : Nat) ∉ u) :
    colonSplit (u ++ 58 :: p) = (u, p) := by
  unfold colonSplit
  rw [jsIndexOf_append p h]
  have ht : List.take u.length (u ++ 58 :: p) = u := List.take_left u (58 :: p)
  have hd : List.drop (u.length + 1) (u ++ 58 :: p) = p := by
    have : u ++ 58 :: p = (u ++ [58]) ++ p := by simp
    rw [this, show u.length + 1 = (u ++ [58]).length by simp, List.drop_left]
  dsimp only
  rw [ht, hd]

lemma colonSplit_no_colon {s : JStr} (h : (58 : Nat) ∉ s) : colonSplit s = ([], s) := by
  unfold colonSplit
  rw [jsIndexOf_not_mem h]

lemma jsSplit_ne_nil (sep : Nat) (l : JStr) : jsSplit sep l ≠ [] := by
  induction l with
  | nil => simp [jsSplit]
  | cons c cs ih =>
    rw [jsSplit]
    split_ifs
    · simp
    · rcases hcs : jsSplit sep cs with _ | ⟨g, gs⟩
      · simp
      · simp

lemma jsSplit_no_sep {sep : Nat} : ∀ {l : JStr}, sep ∉ l → jsSplit sep l = [l] := by
  intro l
  induction l with
  | nil => intro _; rfl
  | cons c cs ih =>
    intro h
    have hc : ¬(c = sep) := fun hh => h (hh ▸ List.mem_cons_self c cs)
    rw [jsSplit, if_neg hc, ih (fun hm => h (List.mem_cons_of_mem c hm))]

lemma jsSplit_append_sep {sep : Nat} : ∀ {l1 : JStr} (l2 : JStr), sep ∉ l1 →
    jsSplit sep (l1 ++ sep :: l2) = l1 :: jsSplit sep l2 := by
  intro l1
  induction l1 with
  | nil => intro l2 _; simp [jsSplit]
  | cons c cs ih =>
    intro l2 h
    have hc : ¬(c = sep) := fun hh => h (hh ▸ List.mem_cons_self c cs)
    rw [List.cons_append, jsSplit, if_neg hc, ih l2 (fun hm => h (List.mem_cons_of_mem c hm))]

/-- The gate on a well-formed Basic header reduces to the credential check:
for a nonempty space-free token and nonempty parameters, the request passes
the gate exactly when authenticate accepts the token. -/
lemma gate_eq (env : Env) (token hq mq : JStr) (hns : (32 : Nat) ∉ token)
    (hne : token ≠ []) (hh : hq ≠ []) (hm : mq ≠ []) :
    gate env ⟨some (jstr "Basic " ++ token), some hq, some mq⟩ =
      if authenticate env token then Except.ok (hq, mq) else Except.error needLoginDDNS := by
  have hBasic : jstr "Basic " = jstr "Basic" ++ [32] := by decide
  have hsplit : jsSplit 32 (jstr "Basic " ++ token) = [jstr "Basic", token] := by
    rw [hBasic, List.append_assoc, List.singleton_append,
      jsSplit_append_sep token (by decide), jsSplit_no_sep hns]
  have hA : jstr "Basic " ++ token ≠ [] := by
    simp [jstr, List.append_eq_nil]
  cases hauth : authenticate env token with
  | true => simp [gate, hA, hsplit, hauth, hne, hh, hm]
  | false => simp [gate, hA, hsplit, hauth, hne]

/-- Authentication with a well-formed Basic token built from a colon-free
username and an arbitrary password succeeds exactly on the expected
credentials. -/
lemma authenticate_token_iff (env : Env) (u p : JStr)
    (hU : validJStr env.BASIC_USER) (hP : validJStr env.BASIC_PASS)
    (hu : validJStr u) (hp : validJStr p) (hcol : (58 : Nat) ∉ u) :
    (authenticate env (base64Encode (utf8Encode (u ++ 58 :: p))) = true ↔
      (u = env.BASIC_USER ∧ p = env.BASIC_PASS)) := by
  have hval : validJStr (u ++ 58 :: p) := by
    intro c hc
    rcases List.mem_append.mp hc with hcu | hcp
    · exact hu c hcu
    · rcases List.mem_cons.mp hcp with rfl | hcp
      · omega
      · exact hp c hcp
  have hbytes : ∀ b ∈ utf8Encode (u ++ 58 :: p), b < 256 := utf8Encode_bytes_lt _ hval
  have hdec : utf8Decode (base64Decode (base64Encode (utf8Encode (u ++ 58 :: p)))) =
      u ++ 58 :: p := by
    rw [base64_roundtrip _ hbytes, utf8_roundtrip _ hval]
  unfold authenticate
  dsimp only
  rw [hdec, colonSplit_append hcol]
  rw [Bool.and_eq_true, timingSafeEqual_iff, timingSafeEqual_iff]
  constructor
  · rintro ⟨h1, h2⟩
    exact ⟨(utf8Encode_inj hU hu h1).symm, (utf8Encode_inj hP hp h2).symm⟩
  · rintro ⟨rfl, rfl⟩
    exact ⟨rfl, rfl⟩

/-- Characterization of find? as the first match in list order. -/
lemma find?_eq_some_iff {α : Type} (p : α → Bool) :
    ∀ (l : List α) (a : α),
      l.find? p = some a ↔
        ∃ l1 l2, l = l1 ++ a :: l2 ∧ p a = true ∧ ∀ x ∈ l1, p x = false := by
  intro l
  induction l with
  | nil =>
    intro a
    constructor
    · intro h; simp [List.find?] at h
    · rintro ⟨l1, l2, heq, _, _⟩; exact absurd heq (by simp)
  | cons x xs ih =>
    intro a
    by_cases hx : p x = true
    · rw [List.find?_cons_of_pos _ hx]
      constructor
      · intro h
        injection h with h
        exact ⟨[], xs, by rw [h]; rfl, by rw [← h]; exact hx, by intro y hy; cases hy⟩
      · rintro ⟨l1, l2, heq, hpa, hall⟩
        cases l1 with
        | nil =>
          simp only [List.nil_append, List.cons.injEq] at heq
          rw [heq.1]
        | cons y ys =>
          simp only [List.cons_append, List.cons.injEq] at heq
          have := hall y (List.mem_cons_self y ys)
          rw [heq.1] at hx
          rw [hx] at this
          cases this
    · have hx2 : p x = false := by
        cases h : p x
        · rfl
        · exact absurd h hx
      rw [List.find?_cons_of_neg _ (by rw [hx2]; simp)]
      rw [ih a]
      constructor
      · rintro ⟨l1, l2, heq, hpa, hall⟩
        refine ⟨x :: l1, l2, by rw [heq]; rfl, hpa, ?_⟩
        intro y hy
        rcases List.mem_cons.mp hy with rfl | hy
        · exact hx2
        · exact hall y hy
      · rintro ⟨l1, l2, heq, hpa, hall⟩
        cases l1 with
        | nil =>
          simp only [List.nil_append, List.cons.injEq] at heq
          rw [heq.1] at hx2
          rw [hpa] at hx2
          cases hx2
        | cons y ys =>
          simp only [List.cons_append, List.cons.injEq] at heq
          exact ⟨ys, l2, heq.2, hpa, fun z hz => hall z (List.mem_cons_of_mem y hz)⟩

/-! Helper lemmas about the handler. -/

lemma fetch_eq_handleDns {env : Env} {req : Request} {cf : Provider} {hn m : JStr}
    (hg : gate env req = Except.ok (hn, m)) :
    fetch env req cf = handleDns hn m cf := by
  unfold fetch
  rw [hg]

lemma fetch_gate_error {env : Env} {req : Request} {cf : Provider} {resp : Response}
    (hg : gate env req = Except.error resp) :
    fetch env req cf = Except.ok (resp, []) := by
  unfold fetch
  rw [hg]

lemma newRecordFor_some_ip {m hn zn : JStr} {body : RecordBody}
    (hb : newRecordFor m hn zn = some body) :
    (Address4.isValid m || Address6.isValid m) = true := by
  unfold newRecordFor at hb
  split_ifs at hb with h1 h2
  · simp [h1]
  · simp [h2]

lemma handleDns_ok_of_zones (hn m : JStr) {cf : Provider} {zs : List Zone}
    (hz : cf.zonesList = Except.ok zs) :
    ∃ out, handleDns hn m cf = Except.ok out := by
  unfold handleDns
  rw [hz]
  dsimp only
  repeat' split
  all_goals exact ⟨_, rfl⟩

lemma handleDns_error_eq {hn m : JStr} {cf : Provider} {e : String}
    (hd : handleDns hn m cf = Except.error e) : cf.zonesList = Except.error e := by
  cases hz : cf.zonesList with
  | error e0 =>
    unfold handleDns at hd
    rw [hz] at hd
    dsimp only at hd
    injection hd with he
    rw [he]
  | ok zs =>
    obtain ⟨out, hout⟩ := handleDns_ok_of_zones hn m hz
    rw [hout] at hd
    cases hd

lemma handleDns_zone_none {hn m : JStr} {cf : Provider} {zs : List Zone}
    (hz : cf.zonesList = Except.ok zs) (hzr : zoneResolve zs hn = none) :
    handleDns hn m cf = Except.ok (zoneNotFound, [Call.zonesList]) := by
  unfold handleDns
  rw [hz]
  dsimp only
  rw [hzr]

lemma handleDns_bad_ip {hn m : JStr} {cf : Provider} {zs : List Zone} {zone : Zone}
    (hz : cf.zonesList = Except.ok zs) (hzr : zoneResolve zs hn = some zone)
    (hip : (Address4.isValid m || Address6.isValid m) = false) :
    handleDns hn m cf = Except.ok (invalidIP, [Call.zonesList]) := by
  unfold handleDns
  rw [hz]
  dsimp only
  rw [hzr]
  dsimp only
  rw [if_neg (by rw [hip]; simp)]

lemma handleDns_rec_fail {hn m : JStr} {cf : Provider} {zs : List Zone} {zone : Zone}
    {e : String}
    (hz : cf.zonesList = Except.ok zs) (hzr : zoneResolve zs hn = some zone)
    (hip : (Address4.isValid m || Address6.isValid m) = true)
    (hrec : cf.dnsRecordsList zone.id = Except.error e) :
    handleDns hn m cf =
      Except.ok (dnsError, [Call.zonesList, Call.dnsRecordsList zone.id]) := by
  unfold handleDns
  rw [hz]
  dsimp only
  rw [hzr]
  dsimp only
  rw [if_pos hip]
  rw [hrec]

lemma handleDns_run (hn m : JStr) {cf : Provider} {zs : List Zone} {zone : Zone}
    {records : List DNSRecord} {body : RecordBody}
    (hz : cf.zonesList = Except.ok zs) (hzr : zoneResolve zs hn = some zone)
    (hrec : cf.dnsRecordsList zone.id = Except.ok records)
    (hbody : newRecordFor m hn zone.name = some body) :
    handleDns hn m cf =
      match updateKey (records.find? (fun r => r.name == hn)) with
      | none =>
        match cf.dnsRecordsCreate zone.id body with
        | Except.error _ =>
          Except.ok (dnsError, [Call.zonesList, Call.dnsRecordsList zone.id,
            Call.dnsRecordsCreate zone.id body])
        | Except.ok _ =>
          Except.ok (createdOK, [Call.zonesList, Call.dnsRecordsList zone.id,
            Call.dnsRecordsCreate zone.id body])
      | some rid =>
        match cf.dnsRecordsUpdate rid zone.id body with
        | Except.error _ =>
          Except.ok (dnsError, [Call.zonesList, Call.dnsRecordsList zone.id,
            Call.dnsRecordsUpdate rid zone.id body])
        | Except.ok _ =>
          Except.ok (updatedOK, [Call.zonesList, Call.dnsRecordsList zone.id,
            Call.dnsRecordsUpdate rid zone.id body]) := by
  unfold handleDns
  rw [hz]
  dsimp only
  rw [hzr]
  dsimp only
  rw [if_pos (newRecordFor_some_ip hbody)]
  rw [hrec]
  dsimp only
  rw [hbody]

lemma handleDns_fail500 {hn m : JStr} {cf : Provider} {zs : List Zone}
    {resp : Response} {calls : List Call}
    (hz : cf.zonesList = Except.ok zs)
    (hd : handleDns hn m cf = Except.ok (resp, calls))
    (c : Call) (hc : c ∈ calls) (hf : callFails cf c = true) :
    resp = dnsError := by
  have hzf : callFails cf Call.zonesList = false := by
    unfold callFails; rw [hz]
  rcases hzr : zoneResolve zs hn with _ | zone
  · rw [handleDns_zone_none hz hzr] at hd
    simp only [Except.ok.injEq, Prod.mk.injEq] at hd
    obtain ⟨h1, h2⟩ := hd
    subst h1; subst h2
    simp only [List.mem_cons, List.not_mem_nil, or_false] at hc
    rw [hc] at hf
    rw [hzf] at hf
    cases hf
  · by_cases hip : (Address4.isValid m || Address6.isValid m) = true
    · cases hrec : cf.dnsRecordsList zone.id with
      | error e =>
        rw [handleDns_rec_fail hz hzr hip hrec] at hd
        simp only [Except.ok.injEq, Prod.mk.injEq] at hd
        exact hd.1.symm
      | ok records =>
        have hrf : callFails cf (Call.dnsRecordsList zone.id) = false := by
          unfold callFails; dsimp only; rw [hrec]
        cases hb : newRecordFor m hn zone.name with
        | none =>
          exfalso
          unfold newRecordFor at hb
          split_ifs at hb with h1 h2
          rw [Bool.or_eq_true] at hip
          rcases hip with h | h
          · exact absurd h h1
          · exact absurd h h2
        | some body =>
          rw [handleDns_run hn m hz hzr hrec hb] at hd
          cases hk : updateKey (records.find? fun r => r.name == hn) with
          | none =>
            rw [hk] at hd
            dsimp only at hd
            cases hcr : cf.dnsRecordsCreate zone.id body with
            | error e =>
              rw [hcr] at hd
              dsimp only at hd
              simp only [Except.ok.injEq, Prod.mk.injEq] at hd
              exact hd.1.symm
            | ok u =>
              rw [hcr] at hd
              dsimp only at hd
              simp only [Except.ok.injEq, Prod.mk.injEq] at hd
              obtain ⟨h1, h2⟩ := hd
              subst h1; subst h2
              have hcf : callFails cf (Call.dnsRecordsCreate zone.id body) = false := by
                unfold callFails; dsimp only; rw [hcr]
              simp only [List.mem_cons, List.not_mem_nil, or_false] at hc
              rcases hc with rfl | rfl | rfl
              · rw [hzf] at hf; cases hf
              · rw [hrf] at hf; cases hf
              · rw [hcf] at hf; cases hf
          | some rid =>
            rw [hk] at hd
            dsimp only at hd
            cases hcu : cf.dnsRecordsUpdate rid zone.id body with
            | error e =>
              rw [hcu] at hd
              dsimp only at hd
              simp only [Except.ok.injEq, Prod.mk.injEq] at hd
              exact hd.1.symm
            | ok u =>
              rw [hcu] at hd
              dsimp only at hd
              simp only [Except.ok.injEq, Prod.mk.injEq] at hd
              obtain ⟨h1, h2⟩ := hd
              subst h1; subst h2
              have hcf : callFails cf (Call.dnsRecordsUpdate rid zone.id body) = false := by
                unfold callFails; dsimp only; rw [hcu]
              simp only [List.mem_cons, List.not_mem_nil, or_false] at hc
              rcases hc with rfl | rfl | rfl
              · rw [hzf] at hf; cases hf
              · rw [hrf] at hf; cases hf
              · rw [hcf] at hf; cases hf
    · have hip2 : (Address4.isValid m || Address6.isValid m) = false := by
        cases h : (Address4.isValid m || Address6.isValid m)
        · rfl
        · exact absurd h hip
      rw [handleDns_bad_ip hz hzr hip2] at hd
      simp only [Except.ok.injEq, Prod.mk.injEq] at hd
      obtain ⟨h1, h2⟩ := hd
      subst h1; subst h2
      simp only [List.mem_cons, List.not_mem_nil, or_false] at hc
      rw [hc] at hf
      rw [hzf] at hf
      cases hf

/-- A well-formed Basic header with failing credentials is rejected with the
second 401 response, regardless of the query parameters. -/
lemma gate_auth_fail {env : Env} {token : JStr} (hns : (32 : Nat) ∉ token)
    (hne : token ≠ []) (hauth : authenticate env token = false)
    (hostq myipq : Option JStr) :
    gate env ⟨some (jstr "Basic " ++ token), hostq, myipq⟩ =
      Except.error needLoginDDNS := by
  have hBasic : jstr "Basic " = jstr "Basic" ++ [32] := by decide
  have hsplit : jsSplit 32 (jstr "Basic " ++ token) = [jstr "Basic", token] := by
    rw [hBasic, List.append_assoc, List.singleton_append,
      jsSplit_append_sep token (by decide), jsSplit_no_sep hns]
  have hA : jstr "Basic " ++ token ≠ [] := by
    simp [jstr, List.append_eq_nil]
  simp [gate, hA, hsplit, hauth, hne]

lemma newRecordFor_isSome (m hn zn : JStr)
    (hip : (Address4.isValid m || Address6.isValid m) = true) :
    ∃ body, newRecordFor m hn zn = some body := by
  unfold newRecordFor
  split_ifs with h1 h2
  · exact ⟨_, rfl⟩
  · exact ⟨_, rfl⟩
  · exfalso
    rw [Bool.or_eq_true] at hip
    rcases hip with h | h
    · exact absurd h h1
    · exact absurd h h2

/-! Claim theorems. -/

/-- C7: for all pairs of strings whose UTF-8 encodings have equal byte
length, timingSafeEqual returns true exactly when the encodings are
byte-identical; for all pairs whose encodings differ in byte length it
returns false. -/
theorem c7_timing_safe_equal (a b : JStr) :
    ((utf8Encode a).length = (utf8Encode b).length →
      (timingSafeEqual a b = true ↔ utf8Encode a = utf8Encode b))
    ∧ ((utf8Encode a).length ≠ (utf8Encode b).length → timingSafeEqual a b = false) :=
  ⟨fun _ => timingSafeEqual_iff a b, timingSafeEqual_len_ne a b⟩

/-- Witness for C7 at concrete strings of equal and of differing length. -/
theorem c7_witness :
    timingSafeEqual (jstr "ab") (jstr "ab") = true ∧
      timingSafeEqual (jstr "a") (jstr "ab") = false :=
  ⟨((c7_timing_safe_equal (jstr "ab") (jstr "ab")).1 (by decide)).mpr (by decide),
   (c7_timing_safe_equal (jstr "a") (jstr "ab")).2 (by decide)⟩

/-- C8: the decoded credentials are split on the first colon, so for every
colon-free username and arbitrary password the Basic token built from them
authenticates exactly when both match the expected credentials; the gate
then passes the request through or answers the 401 login response. -/
theorem c8_basic_auth_first_colon (env : Env) (u p hq mq : JStr)
    (hU : validJStr env.BASIC_USER) (hP : validJStr env.BASIC_PASS)
    (hu : validJStr u) (hp : validJStr p) (hcol : (58 : Nat) ∉ u)
    (hh : hq ≠ []) (hm : mq ≠ []) :
    (authenticate env (base64Encode (utf8Encode (u ++ 58 :: p))) = true ↔
      (u = env.BASIC_USER ∧ p = env.BASIC_PASS))
    ∧ gate env ⟨some (jstr "Basic " ++ base64Encode (utf8Encode (u ++ 58 :: p))),
        some hq, some mq⟩ =
      (if u = env.BASIC_USER ∧ p = env.BASIC_PASS then Except.ok (hq, mq)
       else Except.error needLoginDDNS) := by
  have hiff := authenticate_token_iff env u p hU hP hu hp hcol
  refine ⟨hiff, ?_⟩
  have htok_ne : base64Encode (utf8Encode (u ++ 58 :: p)) ≠ [] :=
    base64Encode_ne_nil (by rw [Ne, utf8Encode_eq_nil_iff]; simp)
  rw [gate_eq env _ hq mq base64Encode_no_space htok_ne hh hm]
  by_cases hcred : u = env.BASIC_USER ∧ p = env.BASIC_PASS
  · rw [if_pos hcred, if_pos (hiff.mpr hcred)]
  · rw [if_neg hcred]
    have hfalse : authenticate env (base64Encode (utf8Encode (u ++ 58 :: p))) = false := by
      cases ha : authenticate env (base64Encode (utf8Encode (u ++ 58 :: p)))
      · rfl
      · exact absurd (hiff.mp ha) hcred
    simp [hfalse]

/-- Witness for C8 at concrete credentials. -/
theorem c8_witness :
    authenticate ⟨jstr "admin", jstr "s3cret"⟩
      (base64Encode (utf8Encode (jstr "admin" ++ 58 :: jstr "s3cret"))) = true :=
  ((c8_basic_auth_first_colon ⟨jstr "admin", jstr "s3cret"⟩ (jstr "admin")
      (jstr "s3cret") (jstr "h") (jstr "1.2.3.4") (by decide) (by decide) (by decide)
      (by decide) (by decide) (by decide) (by decide)).1).mpr ⟨rfl, rfl⟩

/-- C9: when the decoded credential string contains no colon, the handler
does not report a malformed header: the username is the empty string and
the whole decoded string is the password, authentication succeeds exactly
when the expected username is empty and the expected password equals the
decoded string, and otherwise the response is the 401 login response. -/
theorem c9_no_colon_credentials (env : Env) (encoded : JStr)
    (hcol : (58 : Nat) ∉ utf8Decode (base64Decode encoded))
    (hP : validJStr env.BASIC_PASS) :
    colonSplit (utf8Decode (base64Decode encoded)) =
      ([], utf8Decode (base64Decode encoded))
    ∧ (authenticate env encoded = true ↔
        (env.BASIC_USER = [] ∧ env.BASIC_PASS = utf8Decode (base64Decode encoded)))
    ∧ (∀ (hostq myipq : Option JStr) (cf : Provider),
        authenticate env encoded = false → (32 : Nat) ∉ encoded → encoded ≠ [] →
        fetch env ⟨some (jstr "Basic " ++ encoded), hostq, myipq⟩ cf =
          Except.ok (needLoginDDNS, [])) := by
  have hsplit := colonSplit_no_colon hcol
  refine ⟨hsplit, ?_, ?_⟩
  · unfold authenticate
    dsimp only
    rw [hsplit]
    rw [Bool.and_eq_true, timingSafeEqual_iff, timingSafeEqual_iff]
    constructor
    · rintro ⟨h1, h2⟩
      constructor
      · have hn : utf8Encode env.BASIC_USER = [] := by
          rw [h1]; rfl
        exact (utf8Encode_eq_nil_iff _).mp hn
      · exact utf8Encode_inj hP (utf8Decode_valid _) h2
    · rintro ⟨h1, h2⟩
      exact ⟨by rw [h1], by rw [h2]⟩
  · intro hostq myipq cf hauth hns hne
    exact fetch_gate_error (gate_auth_fail hns hne hauth hostq myipq)

/-- Witness for C9: empty expected username, password secret, token the
base64 text of secret. -/
theorem c9_witness :
    authenticate ⟨[], jstr "secret"⟩ (jstr "c2VjcmV0") = true :=
  (c9_no_colon_credentials ⟨[], jstr "secret"⟩ (jstr "c2VjcmV0") (by decide)
      (by decide)).2.1.mpr ⟨rfl, by decide⟩

/-- C1 counterexample: with a provider whose zones listing throws, the
exception escapes the handler as an error outcome instead of being caught
and converted into the 500 response. -/
theorem c1_counterexample :
    fetch cEnv cReq cfBoom = Except.error "boom" ∧
      ∀ out : Response × List Call, fetch cEnv cReq cfBoom ≠ Except.ok out := by
  refine ⟨by decide, ?_⟩
  intro out h
  rw [(by decide : fetch cEnv cReq cfBoom = Except.error "boom")] at h
  cases h

/-- C1 as amended: an error outcome can only arise from the zones listing
call, which sits outside the try block; when the zones listing succeeds the
handler always returns a response, and if any provider call among those
issued failed, the response is the 500 Error modifying DNS record. -/
theorem c1_provider_error_handling :
    (∀ (env : Env) (req : Request) (cf : Provider) (e : String),
        fetch env req cf = Except.error e → cf.zonesList = Except.error e)
    ∧ (∀ (env : Env) (req : Request) (cf : Provider) (zs : List Zone),
        cf.zonesList = Except.ok zs → ∃ out, fetch env req cf = Except.ok out)
    ∧ (∀ (env : Env) (req : Request) (cf : Provider) (zs : List Zone)
        (resp : Response) (calls : List Call),
        cf.zonesList = Except.ok zs → fetch env req cf = Except.ok (resp, calls) →
        (∃ c ∈ calls, callFails cf c = true) → resp = dnsError) := by
  refine ⟨?_, ?_, ?_⟩
  · intro env req cf e h
    unfold fetch at h
    cases hg : gate env req with
    | error r =>
      rw [hg] at h
      dsimp only at h
      cases h
    | ok pr =>
      obtain ⟨hn, m⟩ := pr
      rw [hg] at h
      dsimp only at h
      exact handleDns_error_eq h
  · intro env req cf zs hz
    cases hg : gate env req with
    | error r => exact ⟨(r, []), fetch_gate_error hg⟩
    | ok pr =>
      obtain ⟨hn, m⟩ := pr
      obtain ⟨out, hout⟩ := handleDns_ok_of_zones hn m hz
      exact ⟨out, by rw [fetch_eq_handleDns hg, hout]⟩
  · intro env req cf zs resp calls hz hf hex
    obtain ⟨c, hc, hcf⟩ := hex
    cases hg : gate env req with
    | error r =>
      rw [fetch_gate_error hg] at hf
      simp only [Except.ok.injEq, Prod.mk.injEq] at hf
      obtain ⟨h1, h2⟩ := hf
      subst h2
      cases hc
    | ok pr =>
      obtain ⟨hn, m⟩ := pr
      rw [fetch_eq_handleDns hg] at hf
      exact handleDns_fail500 hz hf c hc hcf

/-- Witness for C1: a provider with a failing records listing still yields a
response, and the escaping error of the counterexample provider is exactly
the zones-listing error. -/
theorem c1_witness :
    (∃ out, fetch cEnv cReq cfRecFail = Except.ok out) ∧
      cfBoom.zonesList = Except.error "boom" :=
  ⟨c1_provider_error_handling.2.1 cEnv cReq cfRecFail [cZone] rfl,
   c1_provider_error_handling.1 cEnv cReq cfBoom "boom" (by decide)⟩

/-- C2 counterexample: an authenticated validated request whose myip is not
a valid address and whose hostname matches no zone is answered with 400
Zone not found, not with 400 Invalid IP address. -/
theorem c2_counterexample :
    fetch cEnv cReqNoZone cfGood = Except.ok (zoneNotFound, [Call.zonesList])
    ∧ (Address4.isValid (jstr "notanip") || Address6.isValid (jstr "notanip")) = false
    ∧ zoneNotFound.body ≠ "Invalid IP address" :=
  ⟨by decide, by decide, by decide⟩

/-- C2 as amended: zone resolution precedes address classification: for
every authenticated validated request with an invalid myip, the response is
Zone not found when no zone name is a suffix of the hostname and Invalid IP
address when a zone matches; in both cases only the zones listing call is
made. -/
theorem c2_zone_before_classify (env : Env) (req : Request) (cf : Provider)
    (hn m : JStr) (zs : List Zone)
    (hg : gate env req = Except.ok (hn, m))
    (hz : cf.zonesList = Except.ok zs)
    (hip : (Address4.isValid m || Address6.isValid m) = false) :
    fetch env req cf =
      Except.ok ((if zoneResolve zs hn = none then zoneNotFound else invalidIP),
        [Call.zonesList]) := by
  rw [fetch_eq_handleDns hg]
  rcases hzr : zoneResolve zs hn with _ | zone
  · rw [handleDns_zone_none hz hzr, if_pos rfl]
  · rw [handleDns_bad_ip hz hzr hip, if_neg (by simp [hzr])]

/-- Witness for C2 as amended: with a matching zone and invalid myip the
response is Invalid IP address. -/
theorem c2_witness :
    fetch cEnv cReqBadIP cfGood =
      Except.ok ((if zoneResolve [cZone] (jstr "home.example.com") = none
        then zoneNotFound else invalidIP), [Call.zonesList]) :=
  c2_zone_before_classify cEnv cReqBadIP cfGood (jstr "home.example.com")
    (jstr "notanip") [cZone] (by decide) rfl (by decide)

/-- C3: the zone resolver returns the first zone in provider list order
whose name is a string suffix of the hostname, with no dot-boundary
requirement and no longest-suffix tie-break; on the example zones it picks
example.com for home.example.com, the suffix check is plain string suffix,
and when no zone matches the response is 400 Zone not found. -/
theorem c3_zone_resolution :
    (∀ (zs : List Zone) (hn : JStr) (z : Zone),
        zoneResolve zs hn = some z ↔
          ∃ l1 l2, zs = l1 ++ z :: l2 ∧ z.name.isSuffixOf hn = true ∧
            ∀ z2 ∈ l1, z2.name.isSuffixOf hn = false)
    ∧ (∀ (w hn : JStr), w.isSuffixOf hn = true ↔ ∃ pre, pre ++ w = hn)
    ∧ zoneResolve [⟨jstr "z1", jstr "example.com"⟩, ⟨jstr "z2", jstr "example.net"⟩]
        (jstr "home.example.com") = some ⟨jstr "z1", jstr "example.com"⟩
    ∧ zoneResolve [⟨jstr "z1", jstr "example.com"⟩] (jstr "xexample.com") =
        some ⟨jstr "z1", jstr "example.com"⟩
    ∧ (∀ (env : Env) (req : Request) (cf : Provider) (hn m : JStr) (zs : List Zone),
        gate env req = Except.ok (hn, m) → cf.zonesList = Except.ok zs →
        zoneResolve zs hn = none →
        fetch env req cf = Except.ok (zoneNotFound, [Call.zonesList])) := by
  refine ⟨?_, ?_, by decide, by decide, ?_⟩
  · intro zs hn z
    exact find?_eq_some_iff _ zs z
  · intro w hn
    have hiff : w.isSuffixOf hn = true ↔ w <:+ hn := by simp [List.isSuffixOf]
    exact ⟨fun h => hiff.mp h, fun h => hiff.mpr h⟩
  · intro env req cf hn m zs hg hz hzr
    rw [fetch_eq_handleDns hg, handleDns_zone_none hz hzr]

/-- Witness for C3 at a concrete unmatched hostname. -/
theorem c3_witness :
    fetch cEnv cReqNoZone cfGood = Except.ok (zoneNotFound, [Call.zonesList]) :=
  c3_zone_resolution.2.2.2.2 cEnv cReqNoZone cfGood (jstr "host.elsewhere.net")
    (jstr "notanip") [cZone] (by decide) rfl (by decide)

/-- C6: when no zone name is a suffix of the hostname, the response is 400
Zone not found, the only provider call issued is the zones listing, and no
write call (create or update) is made. -/
theorem c6_zone_not_found_no_write (env : Env) (req : Request) (cf : Provider)
    (hn m : JStr) (zs : List Zone)
    (hg : gate env req = Except.ok (hn, m)) (hz : cf.zonesList = Except.ok zs)
    (hnone : ∀ z ∈ zs, z.name.isSuffixOf hn = false) :
    fetch env req cf = Except.ok (zoneNotFound, [Call.zonesList])
    ∧ ∀ c ∈ [Call.zonesList], isWriteCall c = false := by
  have hzr : zoneResolve zs hn = none := by
    unfold zoneResolve
    rw [List.find?_eq_none]
    intro z hzmem
    simp [hnone z hzmem]
  refine ⟨by rw [fetch_eq_handleDns hg, handleDns_zone_none hz hzr], ?_⟩
  intro c hc
  simp only [List.mem_cons, List.not_mem_nil, or_false] at hc
  rw [hc]
  rfl

/-- Witness for C6 at a concrete unmatched hostname. -/
theorem c6_witness :
    fetch cEnv cReqNoZone cfGood = Except.ok (zoneNotFound, [Call.zonesList])
    ∧ ∀ c ∈ [Call.zonesList], isWriteCall c = false :=
  c6_zone_not_found_no_write cEnv cReqNoZone cfGood (jstr "host.elsewhere.net")
    (jstr "notanip") [cZone] (by decide) rfl (by decide)

/-- C4 counterexample: with an existing record whose name equals the
hostname but whose id is the empty string, a matching record exists yet the
handler issues a create call and answers created, not an update keyed by
the record id. -/
theorem c4_counterexample :
    (([⟨some [], jstr "home.example.com", jstr "A"⟩] : List DNSRecord).find?
        (fun r => r.name == jstr "home.example.com")).isSome = true
    ∧ fetch cEnv cReq cfNoId =
        Except.ok (createdOK, [Call.zonesList, Call.dnsRecordsList (jstr "z1"),
          Call.dnsRecordsCreate (jstr "z1") cBody])
    ∧ createdOK.body ≠ "DNS record updated successfully" :=
  ⟨by decide, by decide, by decide⟩

/-- C4 as amended: the existing record used for the update decision is the
first record whose name exactly equals the hostname, the type field playing
no part in the key; a create call is issued (response 200 created) when
there is no such record or its id is absent or empty, and an update call
keyed by the record id is issued (response 200 updated) when the id is
present and nonempty. -/
theorem c4_upsert_decision (env : Env) (req : Request) (cf : Provider)
    (hn m : JStr) (zs : List Zone) (zone : Zone) (records : List DNSRecord)
    (hg : gate env req = Except.ok (hn, m))
    (hz : cf.zonesList = Except.ok zs)
    (hzr : zoneResolve zs hn = some zone)
    (hip : (Address4.isValid m || Address6.isValid m) = true)
    (hrec : cf.dnsRecordsList zone.id = Except.ok records)
    (hcreate : ∀ zid b, cf.dnsRecordsCreate zid b = Except.ok ())
    (hupdate : ∀ rid zid b, cf.dnsRecordsUpdate rid zid b = Except.ok ()) :
    (updateKey (records.find? (fun r => r.name == hn)) = none →
      ∃ body, fetch env req cf = Except.ok (createdOK,
        [Call.zonesList, Call.dnsRecordsList zone.id, Call.dnsRecordsCreate zone.id body]))
    ∧ (∀ rid, updateKey (records.find? (fun r => r.name == hn)) = some rid →
      ∃ body, fetch env req cf = Except.ok (updatedOK,
        [Call.zonesList, Call.dnsRecordsList zone.id, Call.dnsRecordsUpdate rid zone.id body]))
    ∧ (∀ r : DNSRecord, records.find? (fun r2 => r2.name == hn) = some r → r.name = hn)
    ∧ (∀ (r : DNSRecord) (ty : JStr),
        ((⟨r.id, r.name, ty⟩ : DNSRecord).name == hn) = (r.name == hn)) := by
  obtain ⟨body, hb⟩ := newRecordFor_isSome m hn zone.name hip
  have hrun := handleDns_run hn m hz hzr hrec hb
  refine ⟨?_, ?_, ?_, fun r ty => rfl⟩
  · intro hk
    refine ⟨body, ?_⟩
    rw [fetch_eq_handleDns hg, hrun, hk]
    dsimp only
    rw [hcreate zone.id body]
  · intro rid hk
    refine ⟨body, ?_⟩
    rw [fetch_eq_handleDns hg, hrun, hk]
    dsimp only
    rw [hupdate rid zone.id body]
  · intro r hr
    have hp := List.find?_some hr
    simpa using hp

/-- Witness for C4 at a concrete existing record with a nonempty id. -/
theorem c4_witness :
    ∃ body, fetch cEnv cReq cfUpd = Except.ok (updatedOK,
      [Call.zonesList, Call.dnsRecordsList cZone.id,
       Call.dnsRecordsUpdate (jstr "rec1") cZone.id body]) :=
  (c4_upsert_decision cEnv cReq cfUpd (jstr "home.example.com") (jstr "203.0.113.5")
      [cZone] cZone [⟨some (jstr "rec1"), jstr "home.example.com", jstr "A"⟩]
      (by decide) rfl (by decide) (by decide) rfl (fun _ _ => rfl)
      (fun _ _ _ => rfl)).2.1 (jstr "rec1") (by decide)

/-- C10: a record whose name equals the hostname but whose id is absent or
empty sends the handler down the create branch: a create call is issued and
the response is 200 created, even though a matching record was found. -/
theorem c10_empty_id_creates (env : Env) (req : Request) (cf : Provider)
    (hn m : JStr) (zs : List Zone) (zone : Zone) (records : List DNSRecord)
    (r : DNSRecord)
    (hg : gate env req = Except.ok (hn, m))
    (hz : cf.zonesList = Except.ok zs)
    (hzr : zoneResolve zs hn = some zone)
    (hip : (Address4.isValid m || Address6.isValid m) = true)
    (hrec : cf.dnsRecordsList zone.id = Except.ok records)
    (hfind : records.find? (fun r2 => r2.name == hn) = some r)
    (hid : r.id = none ∨ r.id = some [])
    (hcreate : ∀ zid b, cf.dnsRecordsCreate zid b = Except.ok ()) :
    ∃ body, fetch env req cf = Except.ok (createdOK,
      [Call.zonesList, Call.dnsRecordsList zone.id,
       Call.dnsRecordsCreate zone.id body]) := by
  have hk : updateKey (records.find? (fun r2 => r2.name == hn)) = none := by
    rw [hfind]
    unfold updateKey
    dsimp only
    rcases hid with h | h
    · rw [h]
    · rw [h]
      rfl
  obtain ⟨body, hb⟩ := newRecordFor_isSome m hn zone.name hip
  refine ⟨body, ?_⟩
  rw [fetch_eq_handleDns hg, handleDns_run hn m hz hzr hrec hb, hk]
  dsimp only
  rw [hcreate zone.id body]

/-- Witness for C10 at a concrete record with an empty id. -/
theorem c10_witness :
    ∃ body, fetch cEnv cReq cfNoId = Except.ok (createdOK,
      [Call.zonesList, Call.dnsRecordsList cZone.id,
       Call.dnsRecordsCreate cZone.id body]) :=
  c10_empty_id_creates cEnv cReq cfNoId (jstr "home.example.com") (jstr "203.0.113.5")
    [cZone] cZone [⟨some [], jstr "home.example.com", jstr "A"⟩]
    ⟨some [], jstr "home.example.com", jstr "A"⟩
    (by decide) rfl (by decide) (by decide) rfl (by decide) (Or.inr rfl)
    (fun _ _ => rfl)

/-- C5 counterexample: for hostname a.example.com.example.com in zone
example.com the body sent to the provider has name a, the prefix before the
first occurrence of the dotted zone name, whereas the hostname with the
trailing dotted-zone suffix stripped would be a.example.com. -/
theorem c5_counterexample :
    fetch cEnv cReqDouble cfGood =
      Except.ok (createdOK, [Call.zonesList, Call.dnsRecordsList (jstr "z1"),
        Call.dnsRecordsCreate (jstr "z1") cBodyA])
    ∧ specRecordName (jstr "a.example.com.example.com") (jstr "example.com") =
        jstr "a.example.com"
    ∧ cBodyA.name ≠ jstr "a.example.com" :=
  ⟨by decide, by decide, by decide⟩

/-- C5 as amended: the upsert body has name the at-sign when the hostname
equals the zone name and otherwise the prefix of the hostname before the
first occurrence of dot followed by the zone name; ttl 300; proxied false;
and type A with the IPv4 canonical form as content when myip is a valid
IPv4 literal, or type AAAA with the IPv6 canonical form when myip is a
valid IPv6 literal. -/
theorem c5_record_body (env : Env) (req : Request) (cf : Provider)
    (hn m : JStr) (zs : List Zone) (zone : Zone) (records : List DNSRecord)
    (hg : gate env req = Except.ok (hn, m))
    (hz : cf.zonesList = Except.ok zs)
    (hzr : zoneResolve zs hn = some zone)
    (hrec : cf.dnsRecordsList zone.id = Except.ok records)
    (hcreate : ∀ zid b, cf.dnsRecordsCreate zid b = Except.ok ())
    (hupdate : ∀ rid zid b, cf.dnsRecordsUpdate rid zid b = Except.ok ()) :
    (Address4.isValid m = true →
      (updateKey (records.find? (fun r => r.name == hn)) = none →
        fetch env req cf = Except.ok (createdOK, [Call.zonesList,
          Call.dnsRecordsList zone.id, Call.dnsRecordsCreate zone.id
            ⟨Address4.correctForm m,
             (if hn == zone.name then jstr "@" else firstSplit (46 :: zone.name) hn),
             300, false, RecType.A⟩]))
      ∧ (∀ rid, updateKey (records.find? (fun r => r.name == hn)) = some rid →
        fetch env req cf = Except.ok (updatedOK, [Call.zonesList,
          Call.dnsRecordsList zone.id, Call.dnsRecordsUpdate rid zone.id
            ⟨Address4.correctForm m,
             (if hn == zone.name then jstr "@" else firstSplit (46 :: zone.name) hn),
             300, false, RecType.A⟩])))
    ∧ (Address4.isValid m = false → Address6.isValid m = true →
      (updateKey (records.find? (fun r => r.name == hn)) = none →
        fetch env req cf = Except.ok (createdOK, [Call.zonesList,
          Call.dnsRecordsList zone.id, Call.dnsRecordsCreate zone.id
            ⟨Address6.correctForm m,
             (if hn == zone.name then jstr "@" else firstSplit (46 :: zone.name) hn),
             300, false, RecType.AAAA⟩]))
      ∧ (∀ rid, updateKey (records.find? (fun r => r.name == hn)) = some rid →
        fetch env req cf = Except.ok (updatedOK, [Call.zonesList,
          Call.dnsRecordsList zone.id, Call.dnsRecordsUpdate rid zone.id
            ⟨Address6.correctForm m,
             (if hn == zone.name then jstr "@" else firstSplit (46 :: zone.name) hn),
             300, false, RecType.AAAA⟩]))) := by
  constructor
  · intro hv4
    have hb : newRecordFor m hn zone.name = some
        ⟨Address4.correctForm m,
         (if hn == zone.name then jstr "@" else firstSplit (46 :: zone.name) hn),
         300, false, RecType.A⟩ := by
      unfold newRecordFor recordName
      rw [if_pos hv4]
    have hrun := handleDns_run hn m hz hzr hrec hb
    constructor
    · intro hk
      rw [fetch_eq_handleDns hg, hrun, hk]
      dsimp only
      rw [hcreate]
    · intro rid hk
      rw [fetch_eq_handleDns hg, hrun, hk]
      dsimp only
      rw [hupdate]
  · intro hv4 hv6
    have hb : newRecordFor m hn zone.name = some
        ⟨Address6.correctForm m,
         (if hn == zone.name then jstr "@" else firstSplit (46 :: zone.name) hn),
         300, false, RecType.AAAA⟩ := by
      unfold newRecordFor recordName
      rw [if_neg (by rw [hv4]; simp), if_pos hv6]
    have hrun := handleDns_run hn m hz hzr hrec hb
    constructor
    · intro hk
      rw [fetch_eq_handleDns hg, hrun, hk]
      dsimp only
      rw [hcreate]
    · intro rid hk
      rw [fetch_eq_handleDns hg, hrun, hk]
      dsimp only
      rw [hupdate]

/-- Witness for C5: the end-to-end example of the spec, creating the A
record named home with content 203.0.113.5, ttl 300 and proxied false. -/
theorem c5_witness :
    fetch cEnv cReq cfGood = Except.ok (createdOK, [Call.zonesList,
      Call.dnsRecordsList cZone.id, Call.dnsRecordsCreate cZone.id
        ⟨Address4.correctForm (jstr "203.0.113.5"),
         (if jstr "home.example.com" == cZone.name then jstr "@"
          else firstSplit (46 :: cZone.name) (jstr "home.example.com")),
         300, false, RecType.A⟩]) :=
  ((c5_record_body cEnv cReq cfGood (jstr "home.example.com") (jstr "203.0.113.5")
      [cZone] cZone [] (by decide) rfl (by decide) rfl (fun _ _ => rfl)
      (fun _ _ _ => rfl)).1 (by decide)).1 (by decide)

end DDNS
